import Mathlib

/-!
# honggfuzz, `linux/perf.c`: hardware performance counter feedback

A shallow embedding of `linux/perf.c` (the counter lifecycle
`arch_perfEnable` / `arch_perfAnalyze`, the overflow handler
`arch_perfHandler` and the ring-buffer walk `arch_perfParseMmap`) and the
properties of it that the specification states.

Modelling conventions

* The process is a `World`: byte-addressed memory with a map of the
  addresses that are mapped, the two thread-local statics of the file
  (`perfMmap`, `perfOverflow`) and the trace of everything observable that
  the code did so far (OS calls, log calls, memory accesses through
  pointers), oldest first.
* Results of OS calls are inputs (`OsResults`): the code calls each of them
  at most once per function call.
* C code runs in the monad `M`: a step returns, faults (an access to an
  address that is not mapped: the process receives SIGSEGV and no further
  statement of the function runs) or runs out of fuel (only the `for (;;)`
  of the parser consumes fuel).
* Pointers and `uint64_t` are naturals below `2 ^ 64`; pointer arithmetic
  wraps at `2 ^ 64`. Multi-byte loads and stores are little-endian.
* Log calls are recorded by level and source line of the `LOGMSG` call.
* `mapped` is the address space as the code finds it at the call; what
  `mmap` and `munmap` do to it is the kernel's side and is recorded in the
  trace only.
-/

namespace Perf

/-! ## Constants of the kernel interface (`linux/perf_event.h`, `signal.h`) -/

/-- Value of `PERF_TYPE_HARDWARE` in `linux/perf_event.h`. -/
def PERF_TYPE_HARDWARE : Nat := 0
/-- Value of `PERF_COUNT_HW_INSTRUCTIONS` in `linux/perf_event.h`. -/
def PERF_COUNT_HW_INSTRUCTIONS : Nat := 1
/-- Value of `PERF_COUNT_HW_BRANCH_INSTRUCTIONS` in `linux/perf_event.h`. -/
def PERF_COUNT_HW_BRANCH_INSTRUCTIONS : Nat := 4
/-- Value of `PERF_SAMPLE_BRANCH_STACK` (bit 11) in `linux/perf_event.h`. -/
def PERF_SAMPLE_BRANCH_STACK : Nat := 2048
/-- Value of `PERF_SAMPLE_BRANCH_ANY` (bit 3) in `linux/perf_event.h`. -/
def PERF_SAMPLE_BRANCH_ANY : Nat := 8
/-- Value of `PERF_FORMAT_ID` (bit 2) in `linux/perf_event.h`. -/
def PERF_FORMAT_ID : Nat := 4
/-- Value of `PERF_FORMAT_GROUP` (bit 3) in `linux/perf_event.h`. -/
def PERF_FORMAT_GROUP : Nat := 8
/-- Value of `PERF_RECORD_SAMPLE` in `linux/perf_event.h`. -/
def PERF_RECORD_SAMPLE : Nat := 9
/-- Value of `PERF_RECORD_MISC_USER` in `linux/perf_event.h`. -/
def PERF_RECORD_MISC_USER : Nat := 2
/-- Signal number of the I/O notification signal on Linux. -/
def SIGIO : Int := 29
/-- The pointer `(void *) -1` that `mmap` returns on failure. -/
def MAP_FAILED : Nat := 2 ^ 64 - 1
/-- Size of `struct perf_event_header` (`__u32 type; __u16 misc; __u16 size`). -/
def sizeof_perf_event_header : Nat := 8
/-- The address `0x44444444` that the parser stores to (perf.c line 76). -/
def DEBUG_ADDR : Nat := 0x44444444

/-- Mode character `'i'` of `hfuzz->createDynamically`. -/
def MODE_i : Int := 105
/-- Mode character `'b'` of `hfuzz->createDynamically`. -/
def MODE_b : Int := 98
/-- Mode character `'e'` of `hfuzz->createDynamically`. -/
def MODE_e : Int := 101

/-- Compile-time and platform quantities that the file takes from its
environment: `getpagesize()`, `sizeof(struct perf_event_attr)` and
`sizeof(struct perf_branch_entry)`. -/
structure Platform where
  pagesize : Nat
  sizeof_attr : Nat
  sizeof_branch_entry : Nat
  deriving DecidableEq, Repr

/-- The macro `_HF_PERF_MMAP_SZ`: one page plus 4 MiB (perf.c line 43). -/
def _HF_PERF_MMAP_SZ (plat : Platform) : Nat := plat.pagesize + 1024 * 1024 * 4

/-! ## Data -/

/-- The fields of `struct perf_event_attr` that `arch_perfEnable` assigns.
Every other field of the C structure is zeroed by the `memset` and is not
assigned in any mode. -/
structure perf_event_attr where
  type : Nat
  size : Nat
  config : Nat
  sample_period : Nat
  sample_type : Nat
  read_format : Nat
  disabled : Nat
  pinned : Nat
  exclude_kernel : Nat
  exclude_hv : Nat
  exclude_callchain_kernel : Nat
  branch_sample_type : Nat
  deriving DecidableEq, Repr

/-- The structure after `memset(&pe, 0, sizeof(struct perf_event_attr))`. -/
def perf_event_attr.zero : perf_event_attr :=
  ⟨0, 0, 0, 0, 0, 0, 0, 0, 0, 0, 0, 0⟩

/-- Levels of the `LOGMSG` calls in the file. -/
inductive LogLevel where
  | l_DEBUG | l_INFO | l_WARN | l_ERROR
  deriving DecidableEq, Repr

/-- The three `ioctl` requests the file issues. -/
inductive IoctlReq where
  | PERF_EVENT_IOC_RESET | PERF_EVENT_IOC_ENABLE | PERF_EVENT_IOC_DISABLE
  deriving DecidableEq, Repr

/-- What the code does that is observable from outside the function. -/
inductive Event where
  | load (addr size : Nat)
  | store (addr size val : Nat)
  | log (lvl : LogLevel) (line : Nat)
  | perf_event_open (attr : perf_event_attr) (pid cpu group_fd : Int) (flags : Nat)
  | sigaction (signum : Int)
  | mmap (len : Nat) (fd : Int)
  | munmap (addr len : Nat)
  | ioctl (fd : Int) (req : IoctlReq)
  | read (fd : Int) (len : Nat)
  | close (fd : Int)
  deriving DecidableEq, Repr

/-- The event is a call into the operating system. -/
def Event.isOsCall : Event → Bool
  | .load _ _ => false
  | .store _ _ _ => false
  | .log _ _ => false
  | _ => true

/-- The event is a memory access through a pointer. -/
def Event.isAccess : Event → Bool
  | .load _ _ => true
  | .store _ _ _ => true
  | _ => false

/-- The fields of `honggfuzz_t` (declared in `common.h`) that the file reads. -/
structure honggfuzz_t where
  createDynamically : Int
  branchBestCnt : Nat
  dynamicFileBestSz : Nat
  deriving DecidableEq, Repr

/-- The fields of `fuzzer_t` (declared in `common.h`) that the file uses. -/
structure fuzzer_t where
  branchCnt : Nat
  dynamicFileSz : Nat
  deriving DecidableEq, Repr

/-- Results of the OS calls of one function call, as the kernel returns
them. `read_val` is the 64-bit value the kernel delivers when the read is
complete. -/
structure OsResults where
  perf_event_open : Int
  sigaction : Int
  mmap : Nat
  ioctl_reset : Int
  ioctl_enable : Int
  ioctl_disable : Int
  read_ret : Int
  read_val : Nat
  deriving DecidableEq, Repr

/-- State of the process as far as the file touches it. -/
structure World where
  mem : Nat → Nat
  mapped : Nat → Bool
  perfMmap : Nat
  perfOverflow : Bool
  trace : List Event

/-- How a piece of C code ends. -/
inductive Outcome (α : Type) where
  | returned (v : α) (w : World)
  | fault (addr : Nat) (w : World)
  | timeout (w : World)

/-- The world at the end. -/
def Outcome.world {α : Type} : Outcome α → World
  | .returned _ w => w
  | .fault _ w => w
  | .timeout w => w

/-- The value, when the code returned. -/
def Outcome.value? {α : Type} : Outcome α → Option α
  | .returned v _ => some v
  | _ => none

/-- The code returned to its caller. -/
def Outcome.isReturned {α : Type} : Outcome α → Bool
  | .returned _ _ => true
  | _ => false

/-- The faulting address, when the code faulted. -/
def Outcome.faultAddr? {α : Type} : Outcome α → Option Nat
  | .fault a _ => some a
  | _ => none

/-- Computations over the world. -/
def M (α : Type) : Type := World → Outcome α

/-- Sequencing: a fault or a timeout ends the computation. -/
def M.bind {α β : Type} (m : M α) (f : α → M β) : M β := fun w =>
  match m w with
  | .returned v w1 => f v w1
  | .fault a w1 => .fault a w1
  | .timeout w1 => .timeout w1

instance : Monad M where
  pure v := fun w => .returned v w
  bind := M.bind

/-- Append an event to the trace. -/
def emit (e : Event) : M Unit := fun w =>
  .returned () { w with trace := w.trace ++ [e] }

/-- A `LOGMSG` / `LOGMSG_P` call at the given source line. -/
def LOGMSG (lvl : LogLevel) (line : Nat) : M Unit := emit (.log lvl line)

/-- Fuel exhausted. -/
def outOfFuel {α : Type} : M α := fun w => .timeout w

/-- Value of the thread-local `perfMmap`. -/
def getPerfMmap : M Nat := fun w => .returned w.perfMmap w

/-- Value of the thread-local `perfOverflow`. -/
def getPerfOverflow : M Bool := fun w => .returned w.perfOverflow w

/-- Assign the thread-local `perfMmap`. -/
def setPerfMmap (p : Nat) : M Unit := fun w => .returned () { w with perfMmap := p }

/-- All `n` bytes from address `a` are mapped. -/
def rangeMapped (mapped : Nat → Bool) (a n : Nat) : Bool :=
  (List.range n).all fun i => mapped ((a + i) % 2 ^ 64)

/-- Little-endian value of the `n` bytes from address `a`. -/
def loadLE (mem : Nat → Nat) (a : Nat) : Nat → Nat
  | 0 => 0
  | n + 1 => mem a % 256 + 256 * loadLE mem ((a + 1) % 2 ^ 64) n

/-- Memory after storing the low `n` bytes of `v` little-endian from `a`. -/
def storeLE (mem : Nat → Nat) (a : Nat) (v : Nat) : Nat → (Nat → Nat)
  | 0 => mem
  | n + 1 => storeLE (fun x => if x = a then v % 256 else mem x) ((a + 1) % 2 ^ 64) (v / 256) n

/-- Read of `n` bytes through a pointer. -/
def load (a n : Nat) : M Nat := fun w =>
  if rangeMapped w.mapped a n then
    .returned (loadLE w.mem a n) { w with trace := w.trace ++ [.load a n] }
  else
    .fault a { w with trace := w.trace ++ [.load a n] }

/-- Write of `n` bytes through a pointer. -/
def store (a n v : Nat) : M Unit := fun w =>
  if rangeMapped w.mapped a n then
    .returned () { w with mem := storeLE w.mem a v n, trace := w.trace ++ [.store a n v] }
  else
    .fault a { w with trace := w.trace ++ [.store a n v] }

/-! ## `arch_perfParseMmap` (perf.c lines 48-83) -/

/-- The loop of lines 72-74: `for (i = 0; i < bnr; i++) LOGMSG(.., lbr[i].from, lbr[i].to)`.
The first argument counts the iterations left, the second is `i`. -/
def logBranches (plat : Platform) (lbr : Nat) : Nat → Nat → M Unit
  | 0, _ => pure ()
  | k + 1, i => do
    let _ ← load ((lbr + plat.sizeof_branch_entry * i) % 2 ^ 64) 8
    let _ ← load ((lbr + plat.sizeof_branch_entry * i + 8) % 2 ^ 64) 8
    LOGMSG .l_ERROR 73
    logBranches plat lbr k (i + 1)

/-- The `for (;;)` of lines 53-80 with the `return 0ULL` that follows it;
`peh` is the record cursor. -/
def parseLoop (plat : Platform) : Nat → Nat → M Nat
  | 0, _ => outOfFuel
  | fuel + 1, peh => do
    let type ← load peh 4
    if type ≠ PERF_RECORD_SAMPLE then
      let _ ← load peh 4
      LOGMSG .l_ERROR 55
      pure 0
    else
      let misc ← load ((peh + 4) % 2 ^ 64) 2
      if misc ≠ PERF_RECORD_MISC_USER then
        let _ ← load ((peh + 4) % 2 ^ 64) 2
        LOGMSG .l_ERROR 60
        pure 0
      else
        let perfMmap ← getPerfMmap
        let bnr ← load ((perfMmap + plat.pagesize + sizeof_perf_event_header) % 2 ^ 64) 8
        let lbr := (perfMmap + plat.pagesize + sizeof_perf_event_header + bnr) % 2 ^ 64
        let _ ← load ((peh + 6) % 2 ^ 64) 2
        LOGMSG .l_INFO 70
        logBranches plat lbr bnr 0
        store DEBUG_ADDR 4 66
        let size ← load ((peh + 6) % 2 ^ 64) 2
        parseLoop plat fuel ((peh + size) % 2 ^ 64)

/-- The function `arch_perfParseMmap`. -/
def arch_perfParseMmap (plat : Platform) (fuel : Nat) : M Nat := do
  let perfMmap ← getPerfMmap
  parseLoop plat fuel ((perfMmap + plat.pagesize) % 2 ^ 64)

/-! ## `arch_perfHandler` (perf.c lines 85-97) -/

/-- The function `arch_perfHandler`; `si` and `unused` are the two pointer
arguments (`0` is `NULL`). Every branch of the C function is a bare
`return`. -/
def arch_perfHandler (signum : Int) (si : Nat) (unused : Nat) : M Unit :=
  if signum ≠ SIGIO then
    pure ()
  else if si ≠ 0 then
    pure ()
  else if unused ≠ 0 then
    pure ()
  else
    pure ()

/-! ## `arch_perfEnable` (perf.c lines 105-213) -/

/-- Lines 201-212: reset and enable the counter. -/
def arch_perfEnable_ioctls (os : OsResults) (perfFd : Int) : M (Bool × Int) := do
  emit (.ioctl perfFd .PERF_EVENT_IOC_RESET)
  if os.ioctl_reset = -1 then
    LOGMSG .l_ERROR 202
    emit (.close perfFd)
    pure (false, perfFd)
  else
    emit (.ioctl perfFd .PERF_EVENT_IOC_ENABLE)
    if os.ioctl_enable = -1 then
      LOGMSG .l_ERROR 208
      emit (.close perfFd)
      pure (false, perfFd)
    else
      pure (true, perfFd)

/-- Lines 148-212: open the counter with the attribute structure `pe` and
set it up. The result is the return value and the value of `*perfFd`. -/
def arch_perfEnable_open (plat : Platform) (os : OsResults) (pid : Int) (hfuzz : honggfuzz_t)
    (pe : perf_event_attr) : M (Bool × Int) := do
  emit (.perf_event_open pe pid (-1) (-1) 0)
  let perfFd := os.perf_event_open
  if perfFd = -1 then
    LOGMSG .l_ERROR 150
    pure (false, perfFd)
  else if hfuzz.createDynamically = MODE_e then
    emit (.sigaction SIGIO)
    if os.sigaction = -1 then
      LOGMSG .l_ERROR 166
      pure (false, perfFd)
    else
      emit (.mmap (_HF_PERF_MMAP_SZ plat) perfFd)
      setPerfMmap os.mmap
      if os.mmap = MAP_FAILED then
        LOGMSG .l_ERROR 172
        emit (.close perfFd)
        pure (false, perfFd)
      else
        arch_perfEnable_ioctls os perfFd
  else
    arch_perfEnable_ioctls os perfFd

/-- Lines 113-120: the attribute structure before the `switch`. -/
def arch_perfEnable_pe0 (plat : Platform) : perf_event_attr :=
  { perf_event_attr.zero with
    size := plat.sizeof_attr
    disabled := 1
    exclude_kernel := 1
    exclude_hv := 1
    exclude_callchain_kernel := 1
    pinned := 1 }

/-- The function `arch_perfEnable`; `perfFd` is the value of `*perfFd` at
the call, the result is the return value and the value of `*perfFd` at the
return. -/
def arch_perfEnable (plat : Platform) (os : OsResults) (pid : Int) (hfuzz : honggfuzz_t)
    (perfFd : Int) : M (Bool × Int) := do
  if hfuzz.createDynamically = 0 then
    pure (true, perfFd)
  else
    LOGMSG .l_DEBUG 111
    let pe := arch_perfEnable_pe0 plat
    if hfuzz.createDynamically = MODE_i then
      LOGMSG .l_DEBUG 124
      arch_perfEnable_open plat os pid hfuzz
        { pe with type := PERF_TYPE_HARDWARE, config := PERF_COUNT_HW_INSTRUCTIONS }
    else if hfuzz.createDynamically = MODE_b then
      LOGMSG .l_DEBUG 129
      arch_perfEnable_open plat os pid hfuzz
        { pe with type := PERF_TYPE_HARDWARE, config := PERF_COUNT_HW_BRANCH_INSTRUCTIONS }
    else if hfuzz.createDynamically = MODE_e then
      LOGMSG .l_DEBUG 134
      arch_perfEnable_open plat os pid hfuzz
        { pe with
          type := PERF_TYPE_HARDWARE
          config := PERF_COUNT_HW_INSTRUCTIONS
          sample_type := PERF_SAMPLE_BRANCH_STACK
          sample_period := 100000
          branch_sample_type := PERF_SAMPLE_BRANCH_ANY
          read_format := PERF_FORMAT_GROUP ||| PERF_FORMAT_ID }
    else
      LOGMSG .l_ERROR 143
      pure (false, perfFd)

/-! ## `arch_perfAnalyze` (perf.c lines 215-252) -/

/-- The label `out:` (lines 246-251). -/
def arch_perfAnalyze_out (plat : Platform) (perfFd : Int) : M Unit := do
  let perfMmap ← getPerfMmap
  if perfMmap ≠ 0 then
    emit (.munmap perfMmap (_HF_PERF_MMAP_SZ plat))
  emit (.close perfFd)

/-- The function `arch_perfAnalyze`; the result is `*fuzzer` at the return. -/
def arch_perfAnalyze (plat : Platform) (os : OsResults) (fuel : Nat) (hfuzz : honggfuzz_t)
    (fuzzer : fuzzer_t) (perfFd : Int) : M fuzzer_t := do
  if hfuzz.createDynamically = 0 then
    pure fuzzer
  else
    emit (.ioctl perfFd .PERF_EVENT_IOC_DISABLE)
    if os.ioctl_disable = -1 then
      LOGMSG .l_ERROR 221
      arch_perfAnalyze_out plat perfFd
      pure fuzzer
    else if hfuzz.createDynamically = MODE_e then
      if (← getPerfOverflow) then
        LOGMSG .l_WARN 228
        arch_perfAnalyze_out plat perfFd
        pure fuzzer
      else
        let count ← arch_perfParseMmap plat fuel
        let fuzzer := { fuzzer with branchCnt := count }
        LOGMSG .l_INFO 242
        arch_perfAnalyze_out plat perfFd
        pure fuzzer
    else
      emit (.read perfFd 8)
      if os.read_ret = 8 then
        let count := os.read_val % 2 ^ 64
        let fuzzer := { fuzzer with branchCnt := count }
        LOGMSG .l_INFO 242
        arch_perfAnalyze_out plat perfFd
        pure fuzzer
      else
        LOGMSG .l_ERROR 236
        arch_perfAnalyze_out plat perfFd
        pure fuzzer

/-! ## Observations on traces -/

/-- Number of `close(fd)` calls in a trace. -/
def closes (fd : Int) (tr : List Event) : Nat := tr.count (.close fd)

/-- Number of `close` calls on any descriptor in a trace. -/
def closesAny (tr : List Event) : Nat :=
  tr.countP fun e => match e with
    | .close _ => true
    | _ => false

/-- Number of `munmap(addr, len)` calls in a trace. -/
def munmaps (addr len : Nat) (tr : List Event) : Nat := tr.count (.munmap addr len)

/-- Number of `munmap` calls of any range in a trace. -/
def munmapsAny (tr : List Event) : Nat :=
  tr.countP fun e => match e with
    | .munmap _ _ => true
    | _ => false

/-- Number of `read` calls in a trace. -/
def reads (tr : List Event) : Nat :=
  tr.countP fun e => match e with
    | .read _ _ => true
    | _ => false

/-- The byte range `[a, a + n)` lies inside the mapped region
`[base, base + _HF_PERF_MMAP_SZ)`. -/
def inRegion (plat : Platform) (base a n : Nat) : Bool :=
  decide (base ≤ a) && decide (a + n ≤ base + _HF_PERF_MMAP_SZ plat)

/-- The access (a load or a store) stays inside the mapped region; events
that are no accesses satisfy it. -/
def Event.accessInRegion (plat : Platform) (base : Nat) : Event → Bool
  | .load a n => inRegion plat base a n
  | .store a n _ => inRegion plat base a n
  | _ => true

/-! ## Concrete inputs -/

/-- A Linux x86-64 platform: 4 KiB pages, `PERF_ATTR_SIZE_VER5`, and the
24-byte `struct perf_branch_entry`. -/
def linux_x86_64 : Platform := ⟨4096, 112, 24⟩

/-- A page-aligned address as `mmap` returns them on x86-64. -/
def exBase : Nat := 0x7f0000000000

/-- Only the trace region `[exBase, exBase + 4 MiB + 4096)` is mapped. -/
def onlyRegionMapped : Nat → Bool := fun a =>
  decide (exBase ≤ a) && decide (a < exBase + _HF_PERF_MMAP_SZ linux_x86_64)

/-- Data area with one well-formed record (type `PERF_RECORD_SAMPLE`, misc
`PERF_RECORD_MISC_USER`, size 40, `bnr = 1`) followed by zero bytes, that
is by a record of type 0. -/
def memOneRecord : Nat → Nat := fun a =>
  if a = exBase + 4096 then 9
  else if a = exBase + 4100 then 2
  else if a = exBase + 4102 then 40
  else if a = exBase + 4104 then 1
  else 0

/-- Data area whose first record header is well-formed and is followed by
the count `bnr = 0x800000`. -/
def memBigBnr : Nat → Nat := fun a =>
  if a = exBase + 4096 then 9
  else if a = exBase + 4100 then 2
  else if a = exBase + 4102 then 16
  else if a = exBase + 4106 then 128
  else 0

/-- Data area whose first record header is well-formed and declares
`size = 0` (and `bnr = 0`). -/
def memSizeZero : Nat → Nat := fun a =>
  if a = exBase + 4096 then 9
  else if a = exBase + 4100 then 2
  else 0

/-- Memory in which a well-formed record header with `size = 65528` and
`bnr = 0` stands every 65528 bytes from the start of the data area on: the
4 MiB data area holds 64 such records in full, and the 66th starts past the
end of the region. -/
def memFullOfRecords : Nat → Nat := fun a =>
  if a < exBase + 4096 then 0
  else if (a - (exBase + 4096)) % 65528 = 0 then 9
  else if (a - (exBase + 4096)) % 65528 = 4 then 2
  else if (a - (exBase + 4096)) % 65528 = 6 then 248
  else if (a - (exBase + 4096)) % 65528 = 7 then 255
  else 0

/-- A world with the trace region at `exBase`, the overflow flag clear and
an empty trace. -/
def exWorld (mem : Nat → Nat) (mapped : Nat → Bool) : World :=
  { mem := mem, mapped := mapped, perfMmap := exBase, perfOverflow := false, trace := [] }

/-! ## Observations and predicates used by the statements -/

/-- The events a computation appended to the trace of the world `w0` it
started from. -/
def Outcome.newEvents {α : Type} (o : Outcome α) (w0 : World) : List Event :=
  o.world.trace.drop w0.trace.length

/-- The arguments of the `perf_event_open` calls in a trace. -/
def openCalls (tr : List Event) : List (perf_event_attr × Int × Int × Int × Nat) :=
  tr.filterMap fun e => match e with
    | .perf_event_open attr pid cpu group_fd flags => some (attr, pid, cpu, group_fd, flags)
    | _ => none

/-- The attribute structure as section 4.1 of the specification words it: a
zeroed structure with the fields common to all modes (starts disabled,
excludes kernel, hypervisor and kernel call-chains, pinned) and the row of
the mode table. -/
def spec_attr (mode : Int) : perf_event_attr :=
  let common : perf_event_attr :=
    { perf_event_attr.zero with
      disabled := 1
      exclude_kernel := 1
      exclude_hv := 1
      exclude_callchain_kernel := 1
      pinned := 1 }
  if mode = MODE_i then
    { common with type := PERF_TYPE_HARDWARE, config := PERF_COUNT_HW_INSTRUCTIONS }
  else if mode = MODE_b then
    { common with type := PERF_TYPE_HARDWARE, config := PERF_COUNT_HW_BRANCH_INSTRUCTIONS }
  else if mode = MODE_e then
    { common with
      type := PERF_TYPE_HARDWARE
      config := PERF_COUNT_HW_INSTRUCTIONS
      sample_type := PERF_SAMPLE_BRANCH_STACK
      sample_period := 100000
      branch_sample_type := PERF_SAMPLE_BRANCH_ANY
      read_format := PERF_FORMAT_GROUP ||| PERF_FORMAT_ID }
  else
    common

/-- A world `w1` reached from `w0` by code that issued no OS call and left
the statics and the address space alone. -/
def Quietly (w0 w1 : World) : Prop :=
  w1.perfMmap = w0.perfMmap ∧ w1.perfOverflow = w0.perfOverflow ∧ w1.mapped = w0.mapped ∧
    ∃ evs : List Event, w1.trace = w0.trace ++ evs ∧ ∀ e ∈ evs, e.isOsCall = false

/-- A computation that issues no OS call, whatever world it starts from and
however it ends. -/
def Quiet {α : Type} (m : M α) : Prop := ∀ w, Quietly w (m w).world

/-- A computation that always returns, changes at most `perfMmap` and the
trace, and whose `perf_event_open` calls are exactly `l`. -/
def Opens {α : Type} (m : M α) (l : List (perf_event_attr × Int × Int × Int × Nat)) : Prop :=
  ∀ w, ∃ (r : α) (p : Nat) (evs : List Event),
    m w = .returned r { w with perfMmap := p, trace := w.trace ++ evs } ∧ openCalls evs = l

/-- Partial-correctness triple with a separate verdict `F` on faults: from a
world satisfying `P`, when `m` returns the value and world satisfy `Q`, and
`m` faults only if `F` holds. Running out of fuel is always allowed. -/
def Triple {α : Type} (F : Prop) (P : World → Prop) (m : M α) (Q : α → World → Prop) : Prop :=
  ∀ w, P w → match m w with
    | .returned v w1 => Q v w1
    | .fault _ _ => F
    | .timeout _ => True

/-- Invariant of the walk over `memSizeZero`: the region is at `exBase`, the
16 bytes of the first record header and of the count after it are those of
`memSizeZero`, and, unless faults are admitted (`F`), every address is
mapped. -/
def SizeZeroInv (F : Prop) (w : World) : Prop :=
  w.perfMmap = exBase ∧
    (∀ i, i < 16 → w.mem (exBase + 4096 + i) = memSizeZero (exBase + 4096 + i)) ∧
    (F ∨ ∀ a, w.mapped a = true)

/-! ## The monad -/

@[simp] theorem pure_apply {α : Type} (v : α) (w : World) :
    (pure v : M α) w = .returned v w := rfl

@[simp] theorem bind_apply {α β : Type} (m : M α) (f : α → M β) (w : World) :
    (m >>= f) w = match m w with
      | .returned v w1 => f v w1
      | .fault a w1 => .fault a w1
      | .timeout w1 => .timeout w1 := rfl

@[simp] theorem ite_apply_M {α : Type} (c : Prop) [Decidable c] (a b : M α) (w : World) :
    (if c then a else b) w = if c then a w else b w := by
  split <;> rfl

@[simp] theorem emit_apply (e : Event) (w : World) :
    emit e w = .returned () { w with trace := w.trace ++ [e] } := rfl

@[simp] theorem LOGMSG_apply (lvl : LogLevel) (line : Nat) (w : World) :
    LOGMSG lvl line w = .returned () { w with trace := w.trace ++ [.log lvl line] } := rfl

@[simp] theorem getPerfMmap_apply (w : World) : getPerfMmap w = .returned w.perfMmap w := rfl

@[simp] theorem getPerfOverflow_apply (w : World) :
    getPerfOverflow w = .returned w.perfOverflow w := rfl

@[simp] theorem setPerfMmap_apply (p : Nat) (w : World) :
    setPerfMmap p w = .returned () { w with perfMmap := p } := rfl

@[simp] theorem outOfFuel_apply {α : Type} (w : World) :
    (outOfFuel : M α) w = .timeout w := rfl

theorem arch_perfAnalyze_out_apply (plat : Platform) (perfFd : Int) (w : World) :
    arch_perfAnalyze_out plat perfFd w =
      .returned () { w with trace := w.trace ++
        ((if w.perfMmap ≠ 0 then [Event.munmap w.perfMmap (_HF_PERF_MMAP_SZ plat)] else []) ++
          [Event.close perfFd]) } := by
  unfold arch_perfAnalyze_out
  by_cases h : w.perfMmap = 0 <;> simp [h]

/-! ## Runs of the model -/

/-- On a data area of zero bytes the parser reads the first header, logs the
type mismatch and returns 0. -/
theorem arch_perfParseMmap_empty_buffer :
    (arch_perfParseMmap linux_x86_64 1 (exWorld (fun _ => 0) onlyRegionMapped)).value? =
        some 0 ∧
      (arch_perfParseMmap linux_x86_64 1 (exWorld (fun _ => 0) onlyRegionMapped)).world.trace =
        [.load (exBase + 4096) 4, .load (exBase + 4096) 4, .log .l_ERROR 55] := by
  decide!

/-- The walk stops at a record whose type is not `PERF_RECORD_SAMPLE`, when
its header can be read. -/
theorem parseLoop_stops_at_type (plat : Platform) (fuel peh : Nat) (w : World)
    (hmap : rangeMapped w.mapped peh 4 = true)
    (htype : loadLE w.mem peh 4 ≠ PERF_RECORD_SAMPLE) :
    parseLoop plat (fuel + 1) peh w =
      .returned 0
        { w with trace := w.trace ++ [.load peh 4, .load peh 4, .log .l_ERROR 55] } := by
  unfold parseLoop
  simp [Perf.load, hmap, htype]

/-- A successful `arch_perfEnable` in mode `'b'`: one open, reset, enable. -/
theorem arch_perfEnable_mode_b_run :
    (arch_perfEnable linux_x86_64 ⟨3, 0, exBase, 0, 0, 0, 8, 5⟩ 1234 ⟨MODE_b, 0, 0⟩ 7
        { exWorld memOneRecord onlyRegionMapped with perfMmap := 0 }).value? = some (true, 3) ∧
      (arch_perfEnable linux_x86_64 ⟨3, 0, exBase, 0, 0, 0, 8, 5⟩ 1234 ⟨MODE_b, 0, 0⟩ 7
        { exWorld memOneRecord onlyRegionMapped with perfMmap := 0 }).world.trace =
        [.log .l_DEBUG 111, .log .l_DEBUG 129,
          .perf_event_open ⟨0, 112, 4, 0, 0, 0, 1, 1, 1, 1, 1, 0⟩ 1234 (-1) (-1) 0,
          .ioctl 3 .PERF_EVENT_IOC_RESET, .ioctl 3 .PERF_EVENT_IOC_ENABLE] := by
  decide!

/-- A successful `arch_perfAnalyze` in mode `'b'`: the count read is stored. -/
theorem arch_perfAnalyze_mode_b_run :
    (arch_perfAnalyze linux_x86_64 ⟨3, 0, 0, 0, 0, 0, 8, 4321⟩ 0 ⟨MODE_b, 0, 0⟩ ⟨17, 0⟩ 3
        { exWorld memOneRecord onlyRegionMapped with perfMmap := 0 }).value? =
        some ⟨4321, 0⟩ ∧
      (arch_perfAnalyze linux_x86_64 ⟨3, 0, 0, 0, 0, 0, 8, 4321⟩ 0 ⟨MODE_b, 0, 0⟩ ⟨17, 0⟩ 3
        { exWorld memOneRecord onlyRegionMapped with perfMmap := 0 }).world.trace =
        [.ioctl 3 .PERF_EVENT_IOC_DISABLE, .read 3 8, .log .l_INFO 242, .close 3] := by
  decide!

/-! ## `arch_perfEnable`: unsupported modes -/

/-- C4: for every mode value other than 0 (disabled), `'i'`, `'b'` and `'e'`,
and for every pid, OS behaviour and starting world, `arch_perfEnable`
returns `false`, leaves `*perfFd` as it was, leaves the statics alone and
appends to the trace only two log calls: no `perf_event_open`, `sigaction`,
`mmap`, `ioctl` or any other OS call is issued. -/
theorem arch_perfEnable_unsupported_mode (plat : Platform) (os : OsResults) (pid : Int)
    (hfuzz : honggfuzz_t) (perfFd : Int) (w : World)
    (h0 : hfuzz.createDynamically ≠ 0) (hi : hfuzz.createDynamically ≠ MODE_i)
    (hb : hfuzz.createDynamically ≠ MODE_b) (he : hfuzz.createDynamically ≠ MODE_e) :
    arch_perfEnable plat os pid hfuzz perfFd w =
        .returned (false, perfFd)
          { w with trace := w.trace ++ [.log .l_DEBUG 111, .log .l_ERROR 143] } ∧
      ∀ e ∈ (arch_perfEnable plat os pid hfuzz perfFd w).newEvents w, e.isOsCall = false := by
  have hrun : arch_perfEnable plat os pid hfuzz perfFd w =
      .returned (false, perfFd)
        { w with trace := w.trace ++ [.log .l_DEBUG 111, .log .l_ERROR 143] } := by
    simp [arch_perfEnable, h0, hi, hb, he]
  refine ⟨hrun, ?_⟩
  rw [hrun]
  simp [Outcome.newEvents, Outcome.world, Event.isOsCall]

/-- C4, witness: mode `'x'` (120). -/
theorem arch_perfEnable_unsupported_mode_witness :
    arch_perfEnable linux_x86_64 ⟨3, 0, exBase, 0, 0, 0, 8, 5⟩ 1234 ⟨120, 0, 0⟩ 7
          (exWorld memOneRecord onlyRegionMapped) =
        .returned (false, 7)
          { exWorld memOneRecord onlyRegionMapped with
            trace := (exWorld memOneRecord onlyRegionMapped).trace ++
              [.log .l_DEBUG 111, .log .l_ERROR 143] } ∧
      ∀ e ∈ (arch_perfEnable linux_x86_64 ⟨3, 0, exBase, 0, 0, 0, 8, 5⟩ 1234 ⟨120, 0, 0⟩ 7
          (exWorld memOneRecord onlyRegionMapped)).newEvents
            (exWorld memOneRecord onlyRegionMapped), e.isOsCall = false :=
  arch_perfEnable_unsupported_mode linux_x86_64 ⟨3, 0, exBase, 0, 0, 0, 8, 5⟩ 1234 ⟨120, 0, 0⟩ 7
    (exWorld memOneRecord onlyRegionMapped) (by decide) (by decide) (by decide) (by decide)

/-! ## `arch_perfAnalyze`: overflow and scalar read -/

/-- C3: in mode `'e'`, when the overflow flag is set at the call and the
disable request succeeds, then for every content `mem` of memory (so for
every content of the trace buffer) the analysis returns with `*fuzzer`
unchanged (no count is stored, `branchCnt` keeps its value), memory
untouched, and exactly these events: the disable request, the warning of
line 228 that marks the overflow, the unmap when `perfMmap` is not `NULL`,
and the close. None of them is a memory access, so the parser did not run,
and the events do not depend on `mem`. -/
theorem arch_perfAnalyze_overflow (plat : Platform) (os : OsResults) (fuel : Nat)
    (hfuzz : honggfuzz_t) (fuzzer : fuzzer_t) (perfFd : Int) (w : World) (mem : Nat → Nat)
    (hmode : hfuzz.createDynamically = MODE_e) (hover : w.perfOverflow = true)
    (hdis : os.ioctl_disable ≠ -1) :
    arch_perfAnalyze plat os fuel hfuzz fuzzer perfFd { w with mem := mem } =
        .returned fuzzer
          { w with
            mem := mem
            trace := w.trace ++
              ([.ioctl perfFd .PERF_EVENT_IOC_DISABLE, .log .l_WARN 228] ++
                ((if w.perfMmap ≠ 0 then [Event.munmap w.perfMmap (_HF_PERF_MMAP_SZ plat)]
                  else []) ++ [Event.close perfFd])) } ∧
      ∀ e ∈ (arch_perfAnalyze plat os fuel hfuzz fuzzer perfFd { w with mem := mem }).newEvents w,
        e.isAccess = false := by
  have hrun : arch_perfAnalyze plat os fuel hfuzz fuzzer perfFd { w with mem := mem } =
      .returned fuzzer
        { w with
          mem := mem
          trace := w.trace ++
            ([.ioctl perfFd .PERF_EVENT_IOC_DISABLE, .log .l_WARN 228] ++
              ((if w.perfMmap ≠ 0 then [Event.munmap w.perfMmap (_HF_PERF_MMAP_SZ plat)]
                else []) ++ [Event.close perfFd])) } := by
    have hne : hfuzz.createDynamically ≠ 0 := by rw [hmode]; decide
    simp [arch_perfAnalyze, hmode, hover, hdis, arch_perfAnalyze_out_apply, MODE_e]
  refine ⟨hrun, ?_⟩
  rw [hrun]
  by_cases hm : w.perfMmap = 0 <;>
    simp [Outcome.newEvents, Outcome.world, Event.isAccess, hm]

/-- C3, witness: the buffer holds a well-formed record and the flag is set. -/
theorem arch_perfAnalyze_overflow_witness :
    arch_perfAnalyze linux_x86_64 ⟨3, 0, exBase, 0, 0, 0, 8, 5⟩ 10 ⟨MODE_e, 0, 0⟩ ⟨17, 0⟩ 3
          { ({ exWorld memSizeZero onlyRegionMapped with perfOverflow := true } : World) with
            mem := memOneRecord } =
        .returned ⟨17, 0⟩
          { ({ exWorld memSizeZero onlyRegionMapped with perfOverflow := true } : World) with
            mem := memOneRecord
            trace := [] ++
              ([.ioctl 3 .PERF_EVENT_IOC_DISABLE, .log .l_WARN 228] ++
                ((if exBase ≠ 0 then [Event.munmap exBase (_HF_PERF_MMAP_SZ linux_x86_64)]
                  else []) ++ [Event.close 3])) } ∧
      ∀ e ∈ (arch_perfAnalyze linux_x86_64 ⟨3, 0, exBase, 0, 0, 0, 8, 5⟩ 10 ⟨MODE_e, 0, 0⟩
          ⟨17, 0⟩ 3
          { ({ exWorld memSizeZero onlyRegionMapped with perfOverflow := true } : World) with
            mem := memOneRecord }).newEvents
            { exWorld memSizeZero onlyRegionMapped with perfOverflow := true },
        e.isAccess = false :=
  arch_perfAnalyze_overflow linux_x86_64 ⟨3, 0, exBase, 0, 0, 0, 8, 5⟩ 10 ⟨MODE_e, 0, 0⟩ ⟨17, 0⟩ 3
    { exWorld memSizeZero onlyRegionMapped with perfOverflow := true } memOneRecord
    rfl rfl (by decide)

/-- C7: in modes `'i'` and `'b'`, after a successful disable,
`arch_perfAnalyze` returns having issued exactly one `read` (of 8 bytes, on
`perfFd`); `*fuzzer` at the return has `branchCnt` equal to the 64-bit value
read when the read returned 8, and is unchanged for any other return value
of the read (short or failed), which is logged as an error at line 236. -/
theorem arch_perfAnalyze_scalar_read (plat : Platform) (os : OsResults) (fuel : Nat)
    (hfuzz : honggfuzz_t) (fuzzer : fuzzer_t) (perfFd : Int) (w : World)
    (hmode : hfuzz.createDynamically = MODE_i ∨ hfuzz.createDynamically = MODE_b)
    (hdis : os.ioctl_disable ≠ -1) :
    arch_perfAnalyze plat os fuel hfuzz fuzzer perfFd w =
        .returned
          (if os.read_ret = 8 then { fuzzer with branchCnt := os.read_val % 2 ^ 64 } else fuzzer)
          { w with
            trace := w.trace ++
              ([.ioctl perfFd .PERF_EVENT_IOC_DISABLE, .read perfFd 8,
                  if os.read_ret = 8 then .log .l_INFO 242 else .log .l_ERROR 236] ++
                ((if w.perfMmap ≠ 0 then [Event.munmap w.perfMmap (_HF_PERF_MMAP_SZ plat)]
                  else []) ++ [Event.close perfFd])) } ∧
      reads ((arch_perfAnalyze plat os fuel hfuzz fuzzer perfFd w).newEvents w) = 1 := by
  have hne : hfuzz.createDynamically ≠ 0 := by
    rcases hmode with h | h <;> rw [h] <;> decide
  have hnee : hfuzz.createDynamically ≠ MODE_e := by
    rcases hmode with h | h <;> rw [h] <;> decide
  have hrun : arch_perfAnalyze plat os fuel hfuzz fuzzer perfFd w =
      .returned
        (if os.read_ret = 8 then { fuzzer with branchCnt := os.read_val % 2 ^ 64 } else fuzzer)
        { w with
          trace := w.trace ++
            ([.ioctl perfFd .PERF_EVENT_IOC_DISABLE, .read perfFd 8,
                if os.read_ret = 8 then .log .l_INFO 242 else .log .l_ERROR 236] ++
              ((if w.perfMmap ≠ 0 then [Event.munmap w.perfMmap (_HF_PERF_MMAP_SZ plat)]
                else []) ++ [Event.close perfFd])) } := by
    by_cases hr : os.read_ret = 8 <;>
      simp [arch_perfAnalyze, hne, hnee, hdis, hr, arch_perfAnalyze_out_apply]
  refine ⟨hrun, ?_⟩
  rw [hrun]
  by_cases hm : w.perfMmap = 0 <;> by_cases hr : os.read_ret = 8 <;>
    simp [Outcome.newEvents, Outcome.world, reads, hm, hr, List.countP_cons]

/-- C7, witness: mode `'b'`, a short read of 4 bytes. -/
theorem arch_perfAnalyze_scalar_read_witness :
    arch_perfAnalyze linux_x86_64 ⟨3, 0, 0, 0, 0, 0, 4, 5⟩ 0 ⟨MODE_b, 0, 0⟩ ⟨17, 0⟩ 3
          { exWorld memSizeZero onlyRegionMapped with perfMmap := 0 } =
        .returned
          (if (4 : Int) = 8 then { (⟨17, 0⟩ : fuzzer_t) with branchCnt := 5 % 2 ^ 64 }
            else ⟨17, 0⟩)
          { ({ exWorld memSizeZero onlyRegionMapped with perfMmap := 0 } : World) with
            trace := [] ++
              ([.ioctl 3 .PERF_EVENT_IOC_DISABLE, .read 3 8,
                  if (4 : Int) = 8 then .log .l_INFO 242 else .log .l_ERROR 236] ++
                ((if (0 : Nat) ≠ 0 then [Event.munmap 0 (_HF_PERF_MMAP_SZ linux_x86_64)]
                  else []) ++ [Event.close 3])) } ∧
      reads ((arch_perfAnalyze linux_x86_64 ⟨3, 0, 0, 0, 0, 0, 4, 5⟩ 0 ⟨MODE_b, 0, 0⟩ ⟨17, 0⟩ 3
          { exWorld memSizeZero onlyRegionMapped with perfMmap := 0 }).newEvents
            { exWorld memSizeZero onlyRegionMapped with perfMmap := 0 }) = 1 :=
  arch_perfAnalyze_scalar_read linux_x86_64 ⟨3, 0, 0, 0, 0, 0, 4, 5⟩ 0 ⟨MODE_b, 0, 0⟩ ⟨17, 0⟩ 3
    { exWorld memSizeZero onlyRegionMapped with perfMmap := 0 } (Or.inr rfl) (by decide)

/-! ## The parser issues no OS call -/

theorem quietly_refl (w : World) : Quietly w w :=
  ⟨rfl, rfl, rfl, [], by simp, by simp⟩

theorem quietly_trans {w0 w1 w2 : World} (h01 : Quietly w0 w1) (h12 : Quietly w1 w2) :
    Quietly w0 w2 := by
  obtain ⟨a1, b1, c1, evs1, t1, q1⟩ := h01
  obtain ⟨a2, b2, c2, evs2, t2, q2⟩ := h12
  refine ⟨a2.trans a1, b2.trans b1, c2.trans c1, evs1 ++ evs2, ?_, ?_⟩
  · rw [t2, t1, List.append_assoc]
  · intro e he
    rcases List.mem_append.1 he with h | h
    · exact q1 e h
    · exact q2 e h

theorem quietly_emit (w : World) (e : Event) (he : e.isOsCall = false) :
    Quietly w { w with trace := w.trace ++ [e] } :=
  ⟨rfl, rfl, rfl, [e], rfl, by simpa using he⟩

theorem quiet_pure {α : Type} (v : α) : Quiet (pure v : M α) := fun w => quietly_refl w

theorem quiet_bind {α β : Type} {m : M α} {f : α → M β} (hm : Quiet m)
    (hf : ∀ v, Quiet (f v)) : Quiet (m >>= f) := by
  intro w
  have h1 := hm w
  rw [bind_apply]
  cases h : m w with
  | returned v w1 =>
    rw [h] at h1
    exact quietly_trans h1 (hf v w1)
  | fault a w1 =>
    rw [h] at h1
    exact h1
  | timeout w1 =>
    rw [h] at h1
    exact h1

theorem quiet_seq {β : Type} {m : M Unit} {k : M β} (hm : Quiet m) (hk : Quiet k) :
    Quiet (do m; k) :=
  quiet_bind hm fun _ => hk

theorem quiet_ite {α : Type} (c : Prop) [Decidable c] {a b : M α} (ha : Quiet a)
    (hb : Quiet b) : Quiet (if c then a else b) := by
  split
  · exact ha
  · exact hb

theorem quiet_load (a n : Nat) : Quiet (load a n) := by
  intro w
  unfold Perf.load
  split
  · exact quietly_emit w _ rfl
  · exact quietly_emit w _ rfl

theorem quiet_store (a n v : Nat) : Quiet (store a n v) := by
  intro w
  unfold Perf.store
  split
  · exact ⟨rfl, rfl, rfl, [.store a n v], rfl, by simp [Event.isOsCall]⟩
  · exact quietly_emit w _ rfl

theorem quiet_LOGMSG (lvl : LogLevel) (line : Nat) : Quiet (LOGMSG lvl line) :=
  fun w => quietly_emit w _ rfl

theorem quiet_getPerfMmap : Quiet getPerfMmap := fun w => quietly_refl w

theorem quiet_outOfFuel {α : Type} : Quiet (outOfFuel : M α) := fun w => quietly_refl w

theorem quiet_logBranches (plat : Platform) (lbr : Nat) :
    ∀ k i : Nat, Quiet (logBranches plat lbr k i)
  | 0, _ => quiet_pure ()
  | k + 1, i => by
    unfold Perf.logBranches
    exact quiet_bind (quiet_load _ _) fun _ =>
      quiet_bind (quiet_load _ _) fun _ =>
        quiet_seq (quiet_LOGMSG _ _) (quiet_logBranches plat lbr k (i + 1))

theorem quiet_parseLoop (plat : Platform) : ∀ fuel peh : Nat, Quiet (parseLoop plat fuel peh)
  | 0, _ => quiet_outOfFuel
  | fuel + 1, peh => by
    unfold Perf.parseLoop
    refine quiet_bind (quiet_load _ _) fun type => ?_
    refine quiet_ite _ ?_ ?_
    · exact quiet_bind (quiet_load _ _) fun _ => quiet_seq (quiet_LOGMSG _ _) (quiet_pure 0)
    refine quiet_bind (quiet_load _ _) fun misc => ?_
    refine quiet_ite _ ?_ ?_
    · exact quiet_bind (quiet_load _ _) fun _ => quiet_seq (quiet_LOGMSG _ _) (quiet_pure 0)
    refine quiet_bind quiet_getPerfMmap fun perfMmap => ?_
    refine quiet_bind (quiet_load _ _) fun bnr => ?_
    refine quiet_bind (quiet_load _ _) fun _ => ?_
    refine quiet_seq (quiet_LOGMSG _ _) ?_
    refine quiet_seq (quiet_logBranches _ _ _ _) ?_
    refine quiet_seq (quiet_store _ _ _) ?_
    exact quiet_bind (quiet_load _ _) fun size => quiet_parseLoop plat fuel _

theorem quiet_arch_perfParseMmap (plat : Platform) (fuel : Nat) :
    Quiet (arch_perfParseMmap plat fuel) :=
  quiet_bind quiet_getPerfMmap fun _ => quiet_parseLoop plat fuel _

/-! ## `arch_perfAnalyze`: release of the descriptor and of the region -/

theorem counts_of_no_os_call (evs : List Event) (h : ∀ e ∈ evs, e.isOsCall = false)
    (fd : Int) (a l : Nat) :
    closes fd evs = 0 ∧ closesAny evs = 0 ∧ munmapsAny evs = 0 ∧ munmaps a l evs = 0 := by
  refine ⟨?_, ?_, ?_, ?_⟩
  · unfold closes
    refine List.count_eq_zero.2 fun hmem => ?_
    simpa [Event.isOsCall] using h _ hmem
  · unfold closesAny
    refine List.countP_eq_zero.2 fun e he => ?_
    have := h e he
    cases e <;> simp_all [Event.isOsCall]
  · unfold munmapsAny
    refine List.countP_eq_zero.2 fun e he => ?_
    have := h e he
    cases e <;> simp_all [Event.isOsCall]
  · unfold munmaps
    refine List.count_eq_zero.2 fun hmem => ?_
    simpa [Event.isOsCall] using h _ hmem

theorem counts_of_out (plat : Platform) (perfFd : Int) (p : Nat) :
    closes perfFd
        ((if p ≠ 0 then [Event.munmap p (_HF_PERF_MMAP_SZ plat)] else []) ++
          [Event.close perfFd]) = 1 ∧
      closesAny
        ((if p ≠ 0 then [Event.munmap p (_HF_PERF_MMAP_SZ plat)] else []) ++
          [Event.close perfFd]) = 1 ∧
      munmapsAny
        ((if p ≠ 0 then [Event.munmap p (_HF_PERF_MMAP_SZ plat)] else []) ++
          [Event.close perfFd]) = (if p ≠ 0 then 1 else 0) ∧
      munmaps p (_HF_PERF_MMAP_SZ plat)
        ((if p ≠ 0 then [Event.munmap p (_HF_PERF_MMAP_SZ plat)] else []) ++
          [Event.close perfFd]) = (if p ≠ 0 then 1 else 0) := by
  by_cases hp : p = 0 <;> simp [hp, closes, closesAny, munmapsAny, munmaps, List.countP_cons]

/-- The result of `arch_perfAnalyze` in the enabled modes, path by path:
`pre` are the events before the label `out:`. -/
theorem arch_perfAnalyze_paths (plat : Platform) (os : OsResults) (fuel : Nat)
    (hfuzz : honggfuzz_t) (fuzzer : fuzzer_t) (perfFd : Int) (w : World)
    (h0 : hfuzz.createDynamically ≠ 0) :
    (∃ (f : fuzzer_t) (mem : Nat → Nat) (pre : List Event),
        arch_perfAnalyze plat os fuel hfuzz fuzzer perfFd w =
          .returned f
            { w with
              mem := mem
              trace := w.trace ++ (pre ++
                ((if w.perfMmap ≠ 0 then [Event.munmap w.perfMmap (_HF_PERF_MMAP_SZ plat)]
                  else []) ++ [Event.close perfFd])) } ∧
        closes perfFd pre = 0 ∧ closesAny pre = 0 ∧ munmapsAny pre = 0 ∧
          munmaps w.perfMmap (_HF_PERF_MMAP_SZ plat) pre = 0) ∨
      ((arch_perfAnalyze plat os fuel hfuzz fuzzer perfFd w).isReturned = false ∧
        hfuzz.createDynamically = MODE_e ∧ os.ioctl_disable ≠ -1 ∧ w.perfOverflow = false ∧
        (arch_perfParseMmap plat fuel
          { w with trace := w.trace ++ [.ioctl perfFd .PERF_EVENT_IOC_DISABLE] }).isReturned
            = false) := by
  by_cases hdis : os.ioctl_disable = -1
  · refine Or.inl ⟨fuzzer, w.mem, [.ioctl perfFd .PERF_EVENT_IOC_DISABLE, .log .l_ERROR 221],
      ?_, ?_⟩
    · simp [arch_perfAnalyze, h0, hdis, arch_perfAnalyze_out_apply]
    · simp [closes, closesAny, munmapsAny, munmaps, List.countP_cons]
  by_cases he : hfuzz.createDynamically = MODE_e
  · have hme0 : MODE_e ≠ 0 := by decide
    by_cases hov : w.perfOverflow = true
    · refine Or.inl ⟨fuzzer, w.mem, [.ioctl perfFd .PERF_EVENT_IOC_DISABLE, .log .l_WARN 228],
        ?_, ?_⟩
      · simp [arch_perfAnalyze, hme0, hdis, he, hov, arch_perfAnalyze_out_apply]
      · simp [closes, closesAny, munmapsAny, munmaps, List.countP_cons]
    · have hq := quiet_arch_perfParseMmap plat fuel
        { w with trace := w.trace ++ [.ioctl perfFd .PERF_EVENT_IOC_DISABLE] }
      cases hp : arch_perfParseMmap plat fuel
          { w with trace := w.trace ++ [.ioctl perfFd .PERF_EVENT_IOC_DISABLE] } with
      | returned v w2 =>
        rw [hp] at hq
        obtain ⟨hm, ho, hmp, evs, ht, hevs⟩ := hq
        simp only [Outcome.world] at hm ho hmp ht
        obtain ⟨c1, c2, c3, c4⟩ :=
          counts_of_no_os_call evs hevs perfFd w.perfMmap (_HF_PERF_MMAP_SZ plat)
        refine Or.inl ⟨{ fuzzer with branchCnt := v }, w2.mem,
          [.ioctl perfFd .PERF_EVENT_IOC_DISABLE] ++ evs ++ [.log .l_INFO 242], ?_, ?_⟩
        · simp [arch_perfAnalyze, hme0, hdis, he, hov, hp, arch_perfAnalyze_out_apply, hm, ht]
          cases w2
          simp_all
        · simp [closes, closesAny, munmapsAny, munmaps, List.countP_cons, List.countP_append,
            List.count_append] at c1 c2 c3 c4 ⊢
          exact ⟨c1, c2, c3, c4⟩
      | fault a w2 =>
        have hov1 : w.perfOverflow = false := by simpa using hov
        refine Or.inr ⟨?_, he, hdis, hov1, by simp [Outcome.isReturned]⟩
        simp only [hov1] at hp
        simp [arch_perfAnalyze, hme0, hdis, he, hov1, hp, Outcome.isReturned]
      | timeout w2 =>
        have hov1 : w.perfOverflow = false := by simpa using hov
        refine Or.inr ⟨?_, he, hdis, hov1, by simp [Outcome.isReturned]⟩
        simp only [hov1] at hp
        simp [arch_perfAnalyze, hme0, hdis, he, hov1, hp, Outcome.isReturned]
  · by_cases hr : os.read_ret = 8
    · refine Or.inl ⟨{ fuzzer with branchCnt := os.read_val % 2 ^ 64 }, w.mem,
        [.ioctl perfFd .PERF_EVENT_IOC_DISABLE, .read perfFd 8, .log .l_INFO 242], ?_, ?_⟩
      · simp [arch_perfAnalyze, h0, hdis, he, hr, arch_perfAnalyze_out_apply]
      · simp [closes, closesAny, munmapsAny, munmaps, List.countP_cons]
    · refine Or.inl ⟨fuzzer, w.mem,
        [.ioctl perfFd .PERF_EVENT_IOC_DISABLE, .read perfFd 8, .log .l_ERROR 236], ?_, ?_⟩
      · simp [arch_perfAnalyze, h0, hdis, he, hr, arch_perfAnalyze_out_apply]
      · simp [closes, closesAny, munmapsAny, munmaps, List.countP_cons]

/-- C5: for every call of `arch_perfAnalyze` in mode `'i'`, `'b'` or `'e'`,
whatever the OS returns and whatever the world holds, either the function
returns, and then on its way it issued exactly one `close`, which is
`close(perfFd)`, and exactly one `munmap`, which is
`munmap(perfMmap, _HF_PERF_MMAP_SZ)`, when `perfMmap` is not `NULL` and no
`munmap` when it is `NULL`; or the function does not return, and that is only
so in mode `'e'` after a successful disable with the overflow flag clear when
the call of `arch_perfParseMmap` itself does not return. So every path that
reaches the end of the function (disable failure, overflow, short or failed
read, parse stop, success) has released the descriptor and the region once. -/
theorem arch_perfAnalyze_releases (plat : Platform) (os : OsResults) (fuel : Nat)
    (hfuzz : honggfuzz_t) (fuzzer : fuzzer_t) (perfFd : Int) (w : World)
    (hmode : hfuzz.createDynamically = MODE_i ∨ hfuzz.createDynamically = MODE_b ∨
      hfuzz.createDynamically = MODE_e) :
    ((arch_perfAnalyze plat os fuel hfuzz fuzzer perfFd w).isReturned = true ∧
        closes perfFd ((arch_perfAnalyze plat os fuel hfuzz fuzzer perfFd w).newEvents w) = 1 ∧
        closesAny ((arch_perfAnalyze plat os fuel hfuzz fuzzer perfFd w).newEvents w) = 1 ∧
        munmapsAny ((arch_perfAnalyze plat os fuel hfuzz fuzzer perfFd w).newEvents w) =
          (if w.perfMmap ≠ 0 then 1 else 0) ∧
        munmaps w.perfMmap (_HF_PERF_MMAP_SZ plat)
            ((arch_perfAnalyze plat os fuel hfuzz fuzzer perfFd w).newEvents w) =
          (if w.perfMmap ≠ 0 then 1 else 0)) ∨
      ((arch_perfAnalyze plat os fuel hfuzz fuzzer perfFd w).isReturned = false ∧
        hfuzz.createDynamically = MODE_e ∧ os.ioctl_disable ≠ -1 ∧ w.perfOverflow = false ∧
        (arch_perfParseMmap plat fuel
          { w with trace := w.trace ++ [.ioctl perfFd .PERF_EVENT_IOC_DISABLE] }).isReturned
            = false) := by
  have h0 : hfuzz.createDynamically ≠ 0 := by
    rcases hmode with h | h | h <;> rw [h] <;> decide
  rcases arch_perfAnalyze_paths plat os fuel hfuzz fuzzer perfFd w h0 with
    ⟨f, mem, pre, hrun, c1, c2, c3, c4⟩ | hno
  · left
    obtain ⟨d1, d2, d3, d4⟩ := counts_of_out plat perfFd w.perfMmap
    rw [hrun]
    simp only [Outcome.newEvents, Outcome.world, Outcome.isReturned, List.drop_left, closes,
      closesAny, munmapsAny, munmaps, List.count_append, List.countP_append, true_and] at *
    omega
  · exact Or.inr hno

/-- C5, witness: mode `'e'`, a buffer with one well-formed record, the whole
address space mapped. -/
theorem arch_perfAnalyze_releases_witness :
    ((arch_perfAnalyze linux_x86_64 ⟨3, 0, exBase, 0, 0, 0, 8, 5⟩ 10 ⟨MODE_e, 0, 0⟩ ⟨17, 0⟩ 3
          (exWorld memOneRecord fun _ => true)).isReturned = true ∧
        closes 3 ((arch_perfAnalyze linux_x86_64 ⟨3, 0, exBase, 0, 0, 0, 8, 5⟩ 10 ⟨MODE_e, 0, 0⟩
          ⟨17, 0⟩ 3 (exWorld memOneRecord fun _ => true)).newEvents
            (exWorld memOneRecord fun _ => true)) = 1 ∧
        closesAny ((arch_perfAnalyze linux_x86_64 ⟨3, 0, exBase, 0, 0, 0, 8, 5⟩ 10
          ⟨MODE_e, 0, 0⟩ ⟨17, 0⟩ 3 (exWorld memOneRecord fun _ => true)).newEvents
            (exWorld memOneRecord fun _ => true)) = 1 ∧
        munmapsAny ((arch_perfAnalyze linux_x86_64 ⟨3, 0, exBase, 0, 0, 0, 8, 5⟩ 10
          ⟨MODE_e, 0, 0⟩ ⟨17, 0⟩ 3 (exWorld memOneRecord fun _ => true)).newEvents
            (exWorld memOneRecord fun _ => true)) = (if exBase ≠ 0 then 1 else 0) ∧
        munmaps exBase (_HF_PERF_MMAP_SZ linux_x86_64)
            ((arch_perfAnalyze linux_x86_64 ⟨3, 0, exBase, 0, 0, 0, 8, 5⟩ 10 ⟨MODE_e, 0, 0⟩
              ⟨17, 0⟩ 3 (exWorld memOneRecord fun _ => true)).newEvents
                (exWorld memOneRecord fun _ => true)) = (if exBase ≠ 0 then 1 else 0)) ∨
      ((arch_perfAnalyze linux_x86_64 ⟨3, 0, exBase, 0, 0, 0, 8, 5⟩ 10 ⟨MODE_e, 0, 0⟩ ⟨17, 0⟩ 3
          (exWorld memOneRecord fun _ => true)).isReturned = false ∧
        MODE_e = MODE_e ∧ (0 : Int) ≠ -1 ∧ false = false ∧
        (arch_perfParseMmap linux_x86_64 10
          { exWorld memOneRecord (fun _ => true) with
            trace := [] ++ [.ioctl 3 .PERF_EVENT_IOC_DISABLE] }).isReturned = false) :=
  arch_perfAnalyze_releases linux_x86_64 ⟨3, 0, exBase, 0, 0, 0, 8, 5⟩ 10 ⟨MODE_e, 0, 0⟩ ⟨17, 0⟩ 3
    (exWorld memOneRecord fun _ => true) (Or.inr (Or.inr rfl))

/-! ## `arch_perfEnable`: the attribute structure -/

/-- C8, as stated, fails: in mode `'i'` the structure passed to
`perf_event_open` is not the mode table applied to an all-zero structure,
its `size` field holds `sizeof(struct perf_event_attr)` (line 115). -/
theorem arch_perfEnable_attr_differs_from_table :
    openCalls ((arch_perfEnable linux_x86_64 ⟨3, 0, exBase, 0, 0, 0, 8, 5⟩ 1234 ⟨MODE_i, 0, 0⟩ 7
        (exWorld memOneRecord onlyRegionMapped)).newEvents
          (exWorld memOneRecord onlyRegionMapped)) ≠
      [(spec_attr MODE_i, 1234, -1, -1, 0)] := by
  decide!

theorem openCalls_append (l1 l2 : List Event) :
    openCalls (l1 ++ l2) = openCalls l1 ++ openCalls l2 := by
  simp [openCalls, List.filterMap_append]

theorem opens_pure {α : Type} (v : α) : Opens (pure v : M α) [] :=
  fun w => ⟨v, w.perfMmap, [], by simp, rfl⟩

theorem opens_emit (e : Event) : Opens (emit e) (openCalls [e]) :=
  fun w => ⟨(), w.perfMmap, [e], rfl, rfl⟩

theorem opens_LOGMSG (lvl : LogLevel) (line : Nat) : Opens (LOGMSG lvl line) [] :=
  fun w => ⟨(), w.perfMmap, [.log lvl line], rfl, rfl⟩

theorem opens_setPerfMmap (p : Nat) : Opens (setPerfMmap p) [] :=
  fun w => ⟨(), p, [], by simp, rfl⟩

theorem opens_bind {α β : Type} {m : M α} {f : α → M β}
    {l1 l2 : List (perf_event_attr × Int × Int × Int × Nat)} (hm : Opens m l1)
    (hf : ∀ v, Opens (f v) l2) : Opens (m >>= f) (l1 ++ l2) := by
  intro w
  obtain ⟨r1, p1, evs1, h1, q1⟩ := hm w
  obtain ⟨r2, p2, evs2, h2, q2⟩ := hf r1 { w with perfMmap := p1, trace := w.trace ++ evs1 }
  refine ⟨r2, p2, evs1 ++ evs2, ?_, ?_⟩
  · rw [bind_apply, h1]
    simp only [h2, List.append_assoc]
  · rw [openCalls_append, q1, q2]

theorem opens_seq {β : Type} {m : M Unit} {k : M β}
    {l : List (perf_event_attr × Int × Int × Int × Nat)} (hm : Opens m []) (hk : Opens k l) :
    Opens (do m; k) l :=
  opens_bind hm fun _ => hk

theorem opens_ite {α : Type} (c : Prop) [Decidable c] {a b : M α}
    {l : List (perf_event_attr × Int × Int × Int × Nat)} (ha : Opens a l) (hb : Opens b l) :
    Opens (if c then a else b) l := by
  split
  · exact ha
  · exact hb

theorem opens_arch_perfEnable_ioctls (os : OsResults) (perfFd : Int) :
    Opens (arch_perfEnable_ioctls os perfFd) [] := by
  unfold Perf.arch_perfEnable_ioctls
  refine opens_seq (opens_emit _) (opens_ite _ ?_ ?_)
  · exact opens_seq (opens_LOGMSG _ _) (opens_seq (opens_emit _) (opens_pure _))
  refine opens_seq (opens_emit _) (opens_ite _ ?_ (opens_pure _))
  exact opens_seq (opens_LOGMSG _ _) (opens_seq (opens_emit _) (opens_pure _))

theorem opens_arch_perfEnable_open (plat : Platform) (os : OsResults) (pid : Int)
    (hfuzz : honggfuzz_t) (pe : perf_event_attr) :
    Opens (arch_perfEnable_open plat os pid hfuzz pe) [(pe, pid, -1, -1, 0)] := by
  unfold Perf.arch_perfEnable_open
  refine @opens_bind _ _ _ _ [(pe, pid, -1, -1, 0)] [] (opens_emit _) fun _ => ?_
  refine opens_ite _ (opens_seq (opens_LOGMSG _ _) (opens_pure _)) ?_
  refine opens_ite _ ?_ (opens_arch_perfEnable_ioctls _ _)
  refine opens_seq (opens_emit _) (opens_ite _ ?_ ?_)
  · exact opens_seq (opens_LOGMSG _ _) (opens_pure _)
  refine opens_seq (opens_emit _) (opens_seq (opens_setPerfMmap _) (opens_ite _ ?_ ?_))
  · exact opens_seq (opens_LOGMSG _ _) (opens_seq (opens_emit _) (opens_pure _))
  · exact opens_arch_perfEnable_ioctls _ _

theorem opens_arch_perfEnable (plat : Platform) (os : OsResults) (pid : Int)
    (hfuzz : honggfuzz_t) (perfFd : Int)
    (hmode : hfuzz.createDynamically = MODE_i ∨ hfuzz.createDynamically = MODE_b ∨
      hfuzz.createDynamically = MODE_e) :
    Opens (arch_perfEnable plat os pid hfuzz perfFd)
      [({ spec_attr hfuzz.createDynamically with size := plat.sizeof_attr }, pid, -1, -1, 0)] := by
  have hib : MODE_b ≠ MODE_i := by decide
  have hie : MODE_e ≠ MODE_i := by decide
  have hbe : MODE_e ≠ MODE_b := by decide
  have hi0 : MODE_i ≠ 0 := by decide
  have hb0 : MODE_b ≠ 0 := by decide
  have he0 : MODE_e ≠ 0 := by decide
  unfold Perf.arch_perfEnable
  rcases hmode with h | h | h
  · rw [if_neg (by rw [h]; exact hi0), if_pos h]
    refine opens_seq (opens_LOGMSG _ _) (opens_seq (opens_LOGMSG _ _) ?_)
    have := opens_arch_perfEnable_open plat os pid hfuzz
      { arch_perfEnable_pe0 plat with
        type := PERF_TYPE_HARDWARE, config := PERF_COUNT_HW_INSTRUCTIONS }
    simpa [spec_attr, h, arch_perfEnable_pe0] using this
  · rw [if_neg (by rw [h]; exact hb0), if_neg (by rw [h]; exact hib), if_pos h]
    refine opens_seq (opens_LOGMSG _ _) (opens_seq (opens_LOGMSG _ _) ?_)
    have := opens_arch_perfEnable_open plat os pid hfuzz
      { arch_perfEnable_pe0 plat with
        type := PERF_TYPE_HARDWARE, config := PERF_COUNT_HW_BRANCH_INSTRUCTIONS }
    simpa [spec_attr, h, arch_perfEnable_pe0, hib] using this
  · rw [if_neg (by rw [h]; exact he0), if_neg (by rw [h]; exact hie),
      if_neg (by rw [h]; exact hbe), if_pos h]
    refine opens_seq (opens_LOGMSG _ _) (opens_seq (opens_LOGMSG _ _) ?_)
    have := opens_arch_perfEnable_open plat os pid hfuzz
      { arch_perfEnable_pe0 plat with
        type := PERF_TYPE_HARDWARE
        config := PERF_COUNT_HW_INSTRUCTIONS
        sample_type := PERF_SAMPLE_BRANCH_STACK
        sample_period := 100000
        branch_sample_type := PERF_SAMPLE_BRANCH_ANY
        read_format := PERF_FORMAT_GROUP ||| PERF_FORMAT_ID }
    simpa [spec_attr, h, arch_perfEnable_pe0, hie, hbe] using this

/-- C8, amended: for each supported mode (`'i'`, `'b'`, `'e'`), every pid and
every behaviour of the OS, `arch_perfEnable` returns having issued exactly
one `perf_event_open`, with the given pid, cpu `-1`, group `-1`, flags `0`,
and with the attribute structure of the specification's mode table applied
to an all-zero structure in which, in addition, `size` is
`sizeof(struct perf_event_attr)`. -/
theorem arch_perfEnable_attr (plat : Platform) (os : OsResults) (pid : Int)
    (hfuzz : honggfuzz_t) (perfFd : Int) (w : World)
    (hmode : hfuzz.createDynamically = MODE_i ∨ hfuzz.createDynamically = MODE_b ∨
      hfuzz.createDynamically = MODE_e) :
    (arch_perfEnable plat os pid hfuzz perfFd w).isReturned = true ∧
      openCalls ((arch_perfEnable plat os pid hfuzz perfFd w).newEvents w) =
        [({ spec_attr hfuzz.createDynamically with size := plat.sizeof_attr },
          pid, -1, -1, 0)] := by
  obtain ⟨r, p, evs, hrun, hev⟩ := opens_arch_perfEnable plat os pid hfuzz perfFd hmode w
  rw [hrun]
  simpa [Outcome.newEvents, Outcome.world, Outcome.isReturned] using hev

/-- C8, witness of the amended claim: mode `'e'`. -/
theorem arch_perfEnable_attr_witness :
    (arch_perfEnable linux_x86_64 ⟨3, 0, exBase, 0, 0, 0, 8, 5⟩ 1234 ⟨MODE_e, 0, 0⟩ 7
        (exWorld memOneRecord onlyRegionMapped)).isReturned = true ∧
      openCalls ((arch_perfEnable linux_x86_64 ⟨3, 0, exBase, 0, 0, 0, 8, 5⟩ 1234
        ⟨MODE_e, 0, 0⟩ 7 (exWorld memOneRecord onlyRegionMapped)).newEvents
          (exWorld memOneRecord onlyRegionMapped)) =
        [({ spec_attr MODE_e with size := 112 }, 1234, -1, -1, 0)] :=
  arch_perfEnable_attr linux_x86_64 ⟨3, 0, exBase, 0, 0, 0, 8, 5⟩ 1234 ⟨MODE_e, 0, 0⟩ 7
    (exWorld memOneRecord onlyRegionMapped) (Or.inr (Or.inr rfl))

/-! ## `arch_perfEnable`: failure after the counter was opened -/

/-- C6, the code at two failing inputs, both in mode `'e'` with
`perf_event_open` returning descriptor 3. When `sigaction` fails (line 165)
the function returns `false` without any `close`: descriptor 3 stays open.
When `mmap` succeeds and the reset `ioctl` fails (line 201) the function
returns `false` after `close(3)` but without any `munmap`: the region mapped
at `perfMmap` stays mapped. -/
theorem arch_perfEnable_failure_leaks :
    ((arch_perfEnable linux_x86_64 ⟨3, -1, exBase, 0, 0, 0, 8, 5⟩ 1234 ⟨MODE_e, 0, 0⟩ 7
          { exWorld memOneRecord onlyRegionMapped with perfMmap := 0 }).value? =
        some (false, 3) ∧
      closesAny ((arch_perfEnable linux_x86_64 ⟨3, -1, exBase, 0, 0, 0, 8, 5⟩ 1234
          ⟨MODE_e, 0, 0⟩ 7
          { exWorld memOneRecord onlyRegionMapped with perfMmap := 0 }).world.trace) = 0) ∧
    ((arch_perfEnable linux_x86_64 ⟨3, 0, exBase, -1, 0, 0, 8, 5⟩ 1234 ⟨MODE_e, 0, 0⟩ 7
          { exWorld memOneRecord onlyRegionMapped with perfMmap := 0 }).value? =
        some (false, 3) ∧
      (arch_perfEnable linux_x86_64 ⟨3, 0, exBase, -1, 0, 0, 8, 5⟩ 1234 ⟨MODE_e, 0, 0⟩ 7
          { exWorld memOneRecord onlyRegionMapped with perfMmap := 0 }).world.trace =
        [.log .l_DEBUG 111, .log .l_DEBUG 134,
          .perf_event_open { spec_attr MODE_e with size := 112 } 1234 (-1) (-1) 0,
          .sigaction SIGIO, .mmap (_HF_PERF_MMAP_SZ linux_x86_64) 3,
          .ioctl 3 .PERF_EVENT_IOC_RESET, .log .l_ERROR 202, .close 3] ∧
      (arch_perfEnable linux_x86_64 ⟨3, 0, exBase, -1, 0, 0, 8, 5⟩ 1234 ⟨MODE_e, 0, 0⟩ 7
          { exWorld memOneRecord onlyRegionMapped with perfMmap := 0 }).world.perfMmap =
        exBase ∧
      munmapsAny ((arch_perfEnable linux_x86_64 ⟨3, 0, exBase, -1, 0, 0, 8, 5⟩ 1234
          ⟨MODE_e, 0, 0⟩ 7
          { exWorld memOneRecord onlyRegionMapped with perfMmap := 0 }).world.trace) = 0) := by
  decide!

/-! ## `arch_perfHandler` -/

/-- C9, the code: `arch_perfHandler` changes nothing, whatever its arguments;
in particular after an invocation with `SIGIO` on a world whose overflow
flag is clear the flag is still clear. -/
theorem arch_perfHandler_sets_nothing :
    (∀ (signum : Int) (si unused : Nat) (w : World),
        arch_perfHandler signum si unused w = .returned () w) ∧
      (arch_perfHandler SIGIO 0 0 (exWorld memOneRecord onlyRegionMapped)).world.perfOverflow =
        false := by
  refine ⟨fun signum si unused w => ?_, ?_⟩
  · unfold arch_perfHandler
    split_ifs <;> rfl
  · decide!

/-! ## Triples -/

theorem triple_bind {α β : Type} {F : Prop} {P : World → Prop} {m : M α} {f : α → M β}
    {Q : α → World → Prop} {R : β → World → Prop} (hm : Triple F P m Q)
    (hf : ∀ v, Triple F (Q v) (f v) R) : Triple F P (m >>= f) R := by
  intro w hP
  have h1 := hm w hP
  rw [bind_apply]
  cases h : m w with
  | returned v w1 =>
    rw [h] at h1
    exact hf v w1 h1
  | fault a w1 =>
    rw [h] at h1
    exact h1
  | timeout w1 => trivial

theorem triple_seq {β : Type} {F : Prop} {P Q : World → Prop} {m : M Unit} {k : M β}
    {R : β → World → Prop} (hm : Triple F P m fun _ => Q) (hk : Triple F Q k R) :
    Triple F P (do m; k) R :=
  triple_bind hm fun _ => hk

theorem triple_fact {α : Type} {F : Prop} {P : World → Prop} {m : M α}
    {Q : α → World → Prop} (φ : Prop) (hφ : ∀ w, P w → φ) (h : φ → Triple F P m Q) :
    Triple F P m Q :=
  fun w hP => h (hφ w hP) w hP

theorem triple_pre {α : Type} {F : Prop} {P P1 : World → Prop} {m : M α}
    {Q : α → World → Prop} (hpre : ∀ w, P w → P1 w) (h : Triple F P1 m Q) :
    Triple F P m Q :=
  fun w hP => h w (hpre w hP)

theorem triple_trivial {α : Type} (P : World → Prop) (m : M α) :
    Triple True P m (fun _ _ => True) := by
  intro w _
  cases m w <;> trivial

theorem triple_pure {α : Type} (F : Prop) (P : World → Prop) (v : α) :
    Triple F P (pure v : M α) (fun r _ => r = v) :=
  fun _ _ => rfl

theorem triple_ite {α : Type} {F : Prop} {P : World → Prop} (c : Prop) [Decidable c]
    {a b : M α} {Q : α → World → Prop} (ha : Triple F P a Q) (hb : Triple F P b Q) :
    Triple F P (if c then a else b) Q := by
  split
  · exact ha
  · exact hb

/-! ## The value `arch_perfParseMmap` returns -/

theorem parseLoop_value (plat : Platform) :
    ∀ fuel peh : Nat,
      Triple True (fun _ => True) (parseLoop plat fuel peh) (fun v _ => v = 0)
  | 0, _ => fun _ _ => trivial
  | fuel + 1, peh => by
    unfold parseLoop
    refine triple_bind (triple_trivial _ _) fun type => ?_
    refine triple_ite _ ?_ ?_
    · exact triple_bind (triple_trivial _ _) fun _ =>
        triple_seq (triple_trivial _ _) (triple_pure _ _ 0)
    refine triple_bind (triple_trivial _ _) fun misc => ?_
    refine triple_ite _ ?_ ?_
    · exact triple_bind (triple_trivial _ _) fun _ =>
        triple_seq (triple_trivial _ _) (triple_pure _ _ 0)
    refine triple_bind (triple_trivial _ _) fun perfMmap => ?_
    refine triple_bind (triple_trivial _ _) fun bnr => ?_
    refine triple_bind (triple_trivial _ _) fun _ => ?_
    refine triple_seq (triple_trivial _ _) ?_
    refine triple_seq (triple_trivial _ _) ?_
    refine triple_seq (triple_trivial _ _) ?_
    exact triple_bind (triple_trivial _ _) fun size => parseLoop_value plat fuel _

theorem arch_perfParseMmap_value (plat : Platform) (fuel : Nat) (w : World) :
    (arch_perfParseMmap plat fuel w).value? = some 0 ∨
      (arch_perfParseMmap plat fuel w).value? = none := by
  have h : Triple True (fun _ => True) (arch_perfParseMmap plat fuel) (fun v _ => v = 0) :=
    triple_bind (triple_trivial _ _) fun _ => parseLoop_value plat fuel _
  have hw := h w trivial
  cases hrun : arch_perfParseMmap plat fuel w with
  | returned v w1 =>
    rw [hrun] at hw
    left
    show some v = some 0
    rw [hw]
  | fault a w1 => right; rfl
  | timeout w1 => right; rfl

/-! ## `arch_perfParseMmap` on concrete buffers -/

/-- C1, the code at a failing input: the data area holds one well-formed
record (type `PERF_RECORD_SAMPLE`, misc `PERF_RECORD_MISC_USER`, size 40,
`bnr = 1`) followed by a record of type 0, so the claimed result is 1. With
the whole address space mapped the parser returns 0; with only the trace
region mapped it does not return: it faults at the store to `0x44444444`.
And on every platform, from every world and with every fuel, the parser
returns 0 whenever it returns. -/
theorem arch_perfParseMmap_one_record :
    (loadLE memOneRecord (exBase + 4096) 4 = PERF_RECORD_SAMPLE ∧
      loadLE memOneRecord (exBase + 4096 + 4) 2 = PERF_RECORD_MISC_USER ∧
      loadLE memOneRecord (exBase + 4096 + 6) 2 = 40 ∧
      loadLE memOneRecord (exBase + 4096 + 8) 8 = 1 ∧
      loadLE memOneRecord (exBase + 4096 + 40) 4 ≠ PERF_RECORD_SAMPLE) ∧
    (arch_perfParseMmap linux_x86_64 10 (exWorld memOneRecord fun _ => true)).value? = some 0 ∧
    (arch_perfParseMmap linux_x86_64 10 (exWorld memOneRecord onlyRegionMapped)).value? = none ∧
    (arch_perfParseMmap linux_x86_64 10 (exWorld memOneRecord onlyRegionMapped)).faultAddr? =
      some DEBUG_ADDR ∧
    (∀ (plat : Platform) (fuel : Nat) (w : World),
      (arch_perfParseMmap plat fuel w).value? = some 0 ∨
        (arch_perfParseMmap plat fuel w).value? = none) := by
  refine ⟨by decide!, by decide!, by decide!, by decide!, arch_perfParseMmap_value⟩

/-- C2, the code at three failing inputs. With only the trace region
mapped: on a buffer whose first record is well-formed the parser stores 4
bytes at `0x44444444`, outside the region; on a buffer whose first record
is well-formed and is followed by the count `bnr = 0x800000` the parser
loads 8 bytes at `perfMmap + pagesize + 8 + bnr`, past the end of the
region. With the whole address space mapped and well-formed records of size
65528 one after the other, the cursor leaves the region: the header of the
66th record is read at `perfMmap + pagesize + 65 * 65528`, past the end of
the region. -/
theorem arch_perfParseMmap_access_outside :
    (Event.store DEBUG_ADDR 4 66 ∈
        (arch_perfParseMmap linux_x86_64 10 (exWorld memOneRecord onlyRegionMapped)).world.trace ∧
      Event.accessInRegion linux_x86_64 exBase (.store DEBUG_ADDR 4 66) = false) ∧
    (Event.load (exBase + 4096 + 8 + 0x800000) 8 ∈
        (arch_perfParseMmap linux_x86_64 10 (exWorld memBigBnr onlyRegionMapped)).world.trace ∧
      Event.accessInRegion linux_x86_64 exBase (.load (exBase + 4096 + 8 + 0x800000) 8) =
        false) ∧
    (Event.load (exBase + 4096 + 65 * 65528) 4 ∈
        (arch_perfParseMmap linux_x86_64 66
          (exWorld memFullOfRecords fun _ => true)).world.trace ∧
      Event.accessInRegion linux_x86_64 exBase (.load (exBase + 4096 + 65 * 65528) 4) =
        false) := by
  decide!

/-! ## `arch_perfParseMmap` on a record of size 0 -/

theorem rangeMapped_of_all (mapped : Nat → Bool) (h : ∀ a, mapped a = true) (a n : Nat) :
    rangeMapped mapped a n = true := by
  simp [rangeMapped, h]

theorem triple_load_sizeZero (F : Prop) (a n : Nat) :
    Triple F (SizeZeroInv F) (load a n)
      (fun v w => SizeZeroInv F w ∧ v = loadLE w.mem a n) := by
  intro w hP
  unfold Perf.load
  by_cases hc : rangeMapped w.mapped a n = true
  · rw [if_pos hc]
    exact ⟨hP, rfl⟩
  · rw [if_neg hc]
    rcases hP.2.2 with hF | hall
    · exact hF
    · exact absurd (rangeMapped_of_all _ hall a n) hc

theorem triple_LOGMSG_sizeZero (F : Prop) (lvl : LogLevel) (line : Nat) :
    Triple F (SizeZeroInv F) (LOGMSG lvl line) (fun _ w => SizeZeroInv F w) :=
  fun _ hP => hP

theorem triple_getPerfMmap_sizeZero (F : Prop) :
    Triple F (SizeZeroInv F) getPerfMmap (fun v w => SizeZeroInv F w ∧ v = exBase) :=
  fun _ hP => ⟨hP, hP.1⟩

theorem triple_store_sizeZero (F : Prop) :
    Triple F (SizeZeroInv F) (store DEBUG_ADDR 4 66) (fun _ w => SizeZeroInv F w) := by
  intro w hP
  unfold Perf.store
  by_cases hc : rangeMapped w.mapped DEBUG_ADDR 4 = true
  · rw [if_pos hc]
    refine ⟨hP.1, fun i hi => ?_, hP.2.2⟩
    have := hP.2.1 i hi
    simp only [storeLE, DEBUG_ADDR, exBase] at *
    norm_num
    rw [if_neg (by omega), if_neg (by omega), if_neg (by omega), if_neg (by omega)]
    exact this
  · rw [if_neg hc]
    rcases hP.2.2 with hF | hall
    · exact hF
    · exact absurd (rangeMapped_of_all _ hall _ _) hc

theorem sizeZero_loads (F : Prop) (w : World) (h : SizeZeroInv F w) :
    loadLE w.mem 139637976731648 4 = 9 ∧ loadLE w.mem 139637976731652 2 = 2 ∧
      loadLE w.mem 139637976731654 2 = 0 ∧ loadLE w.mem 139637976731656 8 = 0 := by
  have h := h.2.1
  have b0 := h 0 (by norm_num)
  have b1 := h 1 (by norm_num)
  have b2 := h 2 (by norm_num)
  have b3 := h 3 (by norm_num)
  have b4 := h 4 (by norm_num)
  have b5 := h 5 (by norm_num)
  have b6 := h 6 (by norm_num)
  have b7 := h 7 (by norm_num)
  have b8 := h 8 (by norm_num)
  have b9 := h 9 (by norm_num)
  have b10 := h 10 (by norm_num)
  have b11 := h 11 (by norm_num)
  have b12 := h 12 (by norm_num)
  have b13 := h 13 (by norm_num)
  have b14 := h 14 (by norm_num)
  have b15 := h 15 (by norm_num)
  simp only [memSizeZero, exBase] at b0 b1 b2 b3 b4 b5 b6 b7 b8 b9 b10 b11 b12 b13 b14 b15
  norm_num at b0 b1 b2 b3 b4 b5 b6 b7 b8 b9 b10 b11 b12 b13 b14 b15
  simp [loadLE, b0, b1, b2, b3, b4, b5, b6, b7, b8, b9, b10, b11, b12, b13, b14, b15]

theorem parseLoop_sizeZero (F : Prop) (fuel : Nat) :
    Triple F (SizeZeroInv F) (parseLoop linux_x86_64 fuel 139637976731648)
      (fun _ _ => False) := by
  induction fuel with
  | zero => intro w _; trivial
  | succ fuel ih =>
    unfold parseLoop
    refine triple_bind (triple_load_sizeZero F _ _) fun type => ?_
    refine triple_fact (type = 9)
      (fun w h => by rw [h.2]; exact (sizeZero_loads F w h.1).1) fun ht => ?_
    subst ht
    rw [if_neg (by decide)]
    refine triple_pre (fun w h => h.1) ?_
    refine triple_bind (triple_load_sizeZero F _ _) fun misc => ?_
    refine triple_fact (misc = 2)
      (fun w h => by rw [h.2]; exact (sizeZero_loads F w h.1).2.1) fun ht => ?_
    subst ht
    rw [if_neg (by decide)]
    refine triple_pre (fun w h => h.1) ?_
    refine triple_bind (triple_getPerfMmap_sizeZero F) fun perfMmap => ?_
    refine triple_fact (perfMmap = exBase) (fun w h => h.2) fun ht => ?_
    subst ht
    refine triple_pre (fun w h => h.1) ?_
    refine triple_bind (triple_load_sizeZero F _ _) fun bnr => ?_
    refine triple_fact (bnr = 0)
      (fun w h => by rw [h.2]; exact (sizeZero_loads F w h.1).2.2.2) fun ht => ?_
    subst ht
    refine triple_pre (fun w h => h.1) ?_
    refine triple_bind (triple_load_sizeZero F _ _) fun _ => ?_
    refine triple_pre (fun w h => h.1) ?_
    refine triple_seq (triple_LOGMSG_sizeZero F _ _) ?_
    rw [logBranches]
    refine @triple_seq _ F _ (SizeZeroInv F) _ _ _ (fun w h => h) ?_
    refine triple_seq (triple_store_sizeZero F) ?_
    refine triple_bind (triple_load_sizeZero F _ _) fun size => ?_
    refine triple_fact (size = 0)
      (fun w h => by rw [h.2]; exact (sizeZero_loads F w h.1).2.2.1) fun ht => ?_
    subst ht
    refine triple_pre (fun w h => h.1) ?_
    exact ih

theorem arch_perfParseMmap_sizeZero (F : Prop) (fuel : Nat) :
    Triple F (SizeZeroInv F) (arch_perfParseMmap linux_x86_64 fuel) (fun _ _ => False) := by
  intro w h
  have hloop := parseLoop_sizeZero F fuel w h
  have hrun : arch_perfParseMmap linux_x86_64 fuel w =
      parseLoop linux_x86_64 fuel 139637976731648 w := by
    unfold arch_perfParseMmap
    rw [bind_apply, getPerfMmap_apply, h.1]
    rfl
  rw [hrun]
  exact hloop

/-- C10, the code at a failing input: the first record header of the data
area is well-formed (type `PERF_RECORD_SAMPLE`, misc `PERF_RECORD_MISC_USER`)
and declares `size = 0`. Whatever part of the address space is mapped and
however many iterations are allowed, `arch_perfParseMmap` does not return;
and when the whole address space is mapped (so that no access faults) it
does not fault either: for every number of iterations the walk is still
running, the cursor never leaves the first record. -/
theorem arch_perfParseMmap_size_zero_never_ends :
    (loadLE memSizeZero (exBase + 4096) 4 = PERF_RECORD_SAMPLE ∧
      loadLE memSizeZero (exBase + 4096 + 4) 2 = PERF_RECORD_MISC_USER ∧
      loadLE memSizeZero (exBase + 4096 + 6) 2 = 0) ∧
    (∀ (mapped : Nat → Bool) (fuel : Nat),
      (arch_perfParseMmap linux_x86_64 fuel (exWorld memSizeZero mapped)).isReturned = false) ∧
    (∀ fuel : Nat,
      (arch_perfParseMmap linux_x86_64 fuel (exWorld memSizeZero fun _ => true)).isReturned
          = false ∧
        (arch_perfParseMmap linux_x86_64 fuel (exWorld memSizeZero fun _ => true)).faultAddr?
          = none) := by
  refine ⟨by decide!, fun mapped fuel => ?_, fun fuel => ?_⟩
  · have h := arch_perfParseMmap_sizeZero True fuel (exWorld memSizeZero mapped)
      ⟨rfl, fun _ _ => rfl, Or.inl trivial⟩
    cases hrun : arch_perfParseMmap linux_x86_64 fuel (exWorld memSizeZero mapped) with
    | returned v w1 =>
      rw [hrun] at h
      exact h.elim
    | fault a w1 => rfl
    | timeout w1 => rfl
  · have h := arch_perfParseMmap_sizeZero False fuel (exWorld memSizeZero fun _ => true)
      ⟨rfl, fun _ _ => rfl, Or.inr fun _ => rfl⟩
    cases hrun : arch_perfParseMmap linux_x86_64 fuel (exWorld memSizeZero fun _ => true) with
    | returned v w1 =>
      rw [hrun] at h
      exact h.elim
    | fault a w1 =>
      rw [hrun] at h
      exact h.elim
    | timeout w1 => exact ⟨rfl, rfl⟩

end Perf
